import Mathlib

/-!
Verification of the Xet CAS deduplication core of AModelhub
(src/kohakuhub/api/xet/): shard serialization and compaction
(shard_manager.py), block compaction (compactor.py), the CAS HTTP
surface (routers/cas.py), the chunker (chunker.py) and the metrics
tracker (metrics.py), shallowly embedded as pure Lean functions.

Bytes are modelled as natural numbers below 256 in lists; machine
integers written by struct.pack are modelled as Nat with explicit
range guards where the source would raise struct.error; database rows
are lists of records; the S3 object store is a key/value association
list; content digests (hashlib.sha256) are an explicit function
parameter H, since every property claimed of them here is digest
independent.
-/

/-! ## Bytes, big-endian packing, and hex decoding -/

/-- Big-endian encoding of n into w bytes, the value part of
struct.pack for an unsigned fixed-width field (overflow is guarded at
each use site, as struct.pack raises there). -/
def beBytes (w n : Nat) : List Nat :=
  (List.range w).map fun i => n / 256 ^ (w - 1 - i) % 256

/-- Whether a character is an ASCII hexadecimal digit (0-9, a-f, A-F). -/
def isHexChar (c : Char) : Bool :=
  (48 ≤ c.toNat && c.toNat ≤ 57) ||
  (97 ≤ c.toNat && c.toNat ≤ 102) ||
  (65 ≤ c.toNat && c.toNat ≤ 70)

/-- Numeric value of a hexadecimal digit character. -/
def hexVal (c : Char) : Nat :=
  if 48 ≤ c.toNat && c.toNat ≤ 57 then c.toNat - 48
  else if 97 ≤ c.toNat && c.toNat ≤ 102 then c.toNat - 87
  else c.toNat - 55

/-- Decode a list of characters as pairs of hex digits; fails on an odd
count or any non-hex character. -/
def hexPairs : List Char → Option (List Nat)
  | [] => some []
  | [_] => none
  | a :: b :: rest =>
    if isHexChar a && isHexChar b then
      (hexPairs rest).map fun t => (hexVal a * 16 + hexVal b) :: t
    else none

/-- Models Python bytes.fromhex on whitespace-free input: every content
digest and xorb id the repository feeds it is whitespace free, so the
whitespace-skipping of the Python original is irrelevant here. Fails
(raises ValueError in Python) on any non-hex character such as the
hyphens of a uuid string, or on an odd digit count. -/
def bytesFromHex (s : String) : Option (List Nat) :=
  hexPairs s.toList

/-! ## Data model (registry rows, §3 of the spec) -/

/-- Row of the XetBlock registry table: content hash (hex string) and size. -/
structure XetBlock where
  hash : String
  size : Nat
  deriving DecidableEq

/-- Row of the XetXorb table: id, S3 storage key, size. -/
structure XetXorb where
  xorb_id : String
  storage_key : String
  size : Nat
  deriving DecidableEq

/-- Row of the XetBlockPlacement table, joined with its block hash and
xorb id as generate_global_shard reads it. -/
structure XetBlockPlacement where
  blockHash : String
  xorbId : String
  offset : Nat
  length : Nat
  deriving DecidableEq

/-- Row of the XetShard table: id, S3 storage key, size. -/
structure XetShard where
  shard_id : String
  storage_key : String
  size : Nat
  deriving DecidableEq

/-! ## S3 object store model

An association list keyed by S3 key; put_object overwrites the value
stored under a key, get is lookup. -/

/-- Models s3.put_object: overwrite the value stored under key. -/
def s3put (store : List (String × List Nat)) (key : String) (body : List Nat) :
    List (String × List Nat) :=
  (key, body) :: store.filter fun e => e.1 ≠ key

/-- Models a successful s3.get_object: lookup by key. -/
def s3get (store : List (String × List Nat)) (key : String) : Option (List Nat) :=
  (store.find? fun e => e.1 = key).map Prod.snd

/-! ## Shard manager (shard_manager.py) -/

/-- Models get_xet_shard_s3_key: cas/shards/ plus two levels of leading
hex fan-out plus the full id. -/
def get_xet_shard_s3_key (shard_id : String) : String :=
  "cas/shards/" ++ shard_id.take 2 ++ "/" ++ (shard_id.drop 2).take 2 ++ "/" ++ shard_id

/-- The 4 magic bytes XSHD of the shard header. -/
def xshdMagic : List Nat := [88, 83, 72, 68]

/-- Models struct.pack of the shard header 4sII fields: 4-byte magic,
4-byte big-endian format version 1, 4-byte big-endian entry count. -/
def shardHeader (count : Nat) : List Nat :=
  xshdMagic ++ beBytes 4 1 ++ beBytes 4 count

/-- Models the 32s field of struct.pack: truncate the byte string to 32
bytes, pad with zero bytes on the right when shorter. -/
def pack32s (bs : List Nat) : List Nat :=
  bs.take 32 ++ List.replicate (32 - bs.length) 0

/-- Models the per-placement entry body of generate_global_shard: decode
the block hash and the xorb id from hex and pack 32s32sQQ. Returns none
exactly when the source's try block raises (non-hex id, or an offset or
length outside the unsigned 64-bit range of Q) and the placement is
skipped with continue. -/
def packPlacementEntry (p : XetBlockPlacement) : Option (List Nat) :=
  match bytesFromHex p.blockHash, bytesFromHex p.xorbId with
  | some hb, some xb =>
    if p.offset < 2 ^ 64 && p.length < 2 ^ 64 then
      some (pack32s hb ++ pack32s xb ++ beBytes 8 p.offset ++ beBytes 8 p.length)
    else none
  | _, _ => none

/-- The concatenated entry region of a shard generated from the given
placement snapshot: placements whose entry raises are skipped. -/
def shardEntryBytes (ps : List XetBlockPlacement) : List Nat :=
  (ps.filterMap packPlacementEntry).flatten

/-- The blob the serialization statements at shard_manager.py lines
42-55 would build for a placement snapshot: the header carries the
count of ALL placements in the snapshot (placements.count(), computed
before any entry is packed), followed by the packed entries of the
placements that did not raise. In the program this code is dead: every
call of generate_global_shard raises NameError before reaching it (see
generate_global_shard_run below); it is modelled as the success branch
behind the import guard. -/
def shardContent (ps : List XetBlockPlacement) : List Nat :=
  shardHeader ps.length ++ shardEntryBytes ps

/-- State touched by the shard manager: the XetShard registry table and
the S3 store. -/
structure ShardState where
  shards : List XetShard
  store : List (String × List Nat)
  deriving DecidableEq

/-- Models XetShard.get_or_create keyed by shard_id: keep the table
unchanged when a row with this id exists, else append the new row. -/
def shardGetOrCreate (shards : List XetShard) (sid skey : String) (ssize : Nat) :
    List XetShard :=
  if shards.any fun s => s.shard_id = sid then shards
  else shards ++ [⟨sid, skey, ssize⟩]

/-- The names shard_manager.py imports from kohakuhub.db (line 6 of the
module). The query built at line 27 also references the bare name
XetXorb, which is not among them and is bound nowhere else in the
module. -/
def shard_manager_db_imports : List String :=
  ["XetBlock", "XetBlockPlacement", "XetShard", "db"]

/-- Outcome of calling a Python function: a normal return value, or an
uncaught exception identified by its name. -/
inductive PyResult (α : Type) where
  | ok (val : α)
  | exn (name : String)
  deriving DecidableEq

/-- Models one call of generate_global_shard, name resolution included.
Building the placement query at shard_manager.py:27 resolves the bare
name XetXorb; that name is not imported by the module, so every call
raises NameError there — before the count, the serialization, the
upload or the registration — returning no value and changing no state
(the background loop logs and swallows the exception). The branch under
the import guard models lines 32-76 — return None on an empty snapshot,
else serialize (shardContent), take the digest of the serialized bytes
as the shard id, upload under the derived key, and register via
get_or_create; a snapshot of 2^32 or more placements would make the
header's I field raise struct.error. That branch is unreachable in the
program as written. -/
def generate_global_shard_run (H : List Nat → String) (ps : List XetBlockPlacement)
    (st : ShardState) : PyResult (Option String) × ShardState :=
  if "XetXorb" ∈ shard_manager_db_imports then
    if ps.length = 0 then (PyResult.ok none, st)
    else if ps.length < 2 ^ 32 then
      (PyResult.ok (some (H (shardContent ps))),
       ⟨shardGetOrCreate st.shards (H (shardContent ps))
          (get_xet_shard_s3_key (H (shardContent ps))) (shardContent ps).length,
        s3put st.store (get_xet_shard_s3_key (H (shardContent ps))) (shardContent ps)⟩)
    else (PyResult.exn "struct.error", st)
  else (PyResult.exn "NameError", st)

/-! ## Compactor (compactor.py) -/

/-- Target xorb size: 100 MiB. -/
def TARGET_XORB_SIZE : Nat := 100 * 1024 * 1024

/-- Models get_xet_block_s3_key. -/
def get_xet_block_s3_key (block_hash : String) : String :=
  "cas/blocks/" ++ block_hash.take 2 ++ "/" ++ (block_hash.drop 2).take 2 ++ "/" ++ block_hash

/-- The batching loop of compact_blocks: append each block to the
current batch, and when the accumulated size reaches the target seal
the batch; the final check of the source seals any nonempty remainder
batch as well. Returns the sealed batches in order. -/
def compactBatchesAux : List XetBlock → List XetBlock → Nat → List (List XetBlock)
  | [], current_batch, _ => if current_batch.isEmpty then [] else [current_batch]
  | b :: rest, current_batch, current_size =>
    if TARGET_XORB_SIZE ≤ current_size + b.size then
      (current_batch ++ [b]) :: compactBatchesAux rest [] 0
    else compactBatchesAux rest (current_batch ++ [b]) (current_size + b.size)

/-- The batches of blocks that one compact_blocks sweep passes to
_create_xorb_from_batch, given the selected unplaced blocks. -/
def compact_blocks_batches (unplaced : List XetBlock) : List (List XetBlock) :=
  compactBatchesAux unplaced [] 0

/-- The unplaced-block selection of compact_blocks: blocks of positive
size with no placement row, limited to 1000 per sweep. -/
def selectUnplacedBlocks (registry : List XetBlock) (placedHashes : List String) :
    List XetBlock :=
  ((registry.filter fun b => decide (0 < b.size) && !(placedHashes.contains b.hash)).take 1000)

/-! ## Claim C1 -/

/-- A placement as the compactor creates it: the block hash is a sha256
hex digest, but the xorb id is str(uuid.uuid4()), a hyphenated hex
string (_create_xorb_from_batch, compactor.py line 51). -/
def uuidXorbPlacement : XetBlockPlacement :=
  ⟨String.mk (List.replicate 64 'a'), "f47ac10b-58cc-4372-a567-0e02b2c3d479", 0, 4194304⟩

/-- C1: holds of the program, vacuously. Every call of
generate_global_shard raises NameError while building the placement
query (XetXorb is referenced at shard_manager.py:27 but never
imported), returns no value, and leaves registry and store untouched:
no shard blob is ever produced, so every blob produced by the function
trivially satisfies the claimed header-plus-records format. The
serializer further down is dead code (its would-be output is examined
separately in shardContent_uuid_xorb_would_mismatch). -/
theorem c1_every_call_raises_no_blob_produced (H : List Nat → String)
    (ps : List XetBlockPlacement) (st : ShardState) :
    generate_global_shard_run H ps st = (PyResult.exn "NameError", st) := by
  have hx : ¬ ("XetXorb" ∈ shard_manager_db_imports) := by decide
  simp [generate_global_shard_run, hx]

/-- Dead-code analysis supporting the vacuity reading of C1: had the
serializer at shard_manager.py:42-55 ever run on a placement whose xorb
id has the compactor's str(uuid.uuid4()) shape, bytes.fromhex would
raise on the hyphens, the entry would be skipped, and the header would
still carry the pre-computed placement count: a 12-byte header
announcing one 80-byte record, followed by zero records. -/
theorem shardContent_uuid_xorb_would_mismatch :
    shardContent [uuidXorbPlacement] = shardHeader 1 ∧
    packPlacementEntry uuidXorbPlacement = none ∧
    (shardContent [uuidXorbPlacement]).length = 12 ∧
    shardHeader 1 = [88, 83, 72, 68, 0, 0, 0, 1, 0, 0, 0, 1] := by
  refine ⟨?_, ?_, ?_, ?_⟩ <;> decide

/-! ## Claim C2 -/

/-- A 4 MiB block as in the spec's compaction scenario. -/
def fourMiBBlock : XetBlock := ⟨"b0", 4194304⟩

/-- C2 counterexample: with 30 unplaced blocks of exactly 4 MiB and the
100 MiB target, the sweep seals TWO xorbs, not one: the count of
sealed batches is 2, not 1, because the end-of-sweep flush seals the
5-block remainder instead of leaving it unplaced. -/
theorem c2_two_batches_not_one :
    (compact_blocks_batches (List.replicate 30 fourMiBBlock)).length = 2 ∧
    ¬ (compact_blocks_batches (List.replicate 30 fourMiBBlock)).length = 1 := by
  refine ⟨?_, ?_⟩ <;> decide

/-- C2 amended: the sweep given 30 unplaced 4 MiB blocks with the
100 MiB target seals exactly two xorbs: one with the first 25 blocks
(exactly 100 MiB) and a second with the remaining 5 blocks, sealed by
the end-of-sweep flush; no block is left unplaced for the next sweep. -/
theorem c2_thirty_blocks_seal_two_xorbs :
    compact_blocks_batches (List.replicate 30 fourMiBBlock) =
      [List.replicate 25 fourMiBBlock, List.replicate 5 fourMiBBlock] := by
  decide

/-- Getting the key just put returns the body just put. -/
theorem s3get_s3put_self (store : List (String × List Nat)) (k : String) (v : List Nat) :
    s3get (s3put store k v) k = some v := by
  simp [s3get, s3put, List.find?]

/-! ## Claim C5 -/

/-- Digest stand-in for the C5 failing input. -/
def c5H (_bytes : List Nat) : String := "s5"

/-- A perfectly serializable placement snapshot for the C5 failing
input: hex block hash, hex xorb id, small offset and length. Even this
snapshot yields no shard id, because the call dies before reading it. -/
def c5Placement : XetBlockPlacement :=
  ⟨String.mk (List.replicate 64 'a'), String.mk (List.replicate 64 'b'), 0, 4194304⟩

/-- Initial shard-manager state of the C5 failing input: empty. -/
def c5State : ShardState := ⟨[], []⟩

/-- C5: refuted; the code is at fault. Two calls of
generate_global_shard against the same unchanged placement table both
raise NameError at the query construction (XetXorb unimported,
shard_manager.py:27): neither call serializes anything or yields a
shard id, and nothing is ever registered — evaluated here on a
perfectly serializable one-placement snapshot. The claimed determinism
and idempotence are properties of the dead success branch only. -/
theorem c5_two_calls_yield_no_shard_id :
    (generate_global_shard_run c5H [c5Placement] c5State).1 = PyResult.exn "NameError" ∧
    (generate_global_shard_run c5H [c5Placement]
      (generate_global_shard_run c5H [c5Placement] c5State).2).1 =
        PyResult.exn "NameError" ∧
    (generate_global_shard_run c5H [c5Placement]
      (generate_global_shard_run c5H [c5Placement] c5State).2).2.shards = [] := by
  refine ⟨?_, ?_, ?_⟩ <;> decide

/-! ## Shard compaction (compact_shards in shard_manager.py) -/

/-- The small-shard threshold: 1 MiB. -/
def SMALL_SHARD_LIMIT : Nat := 1024 * 1024

/-- The shards selected for compaction: all shards under the small-size
threshold. -/
def smallShards (shards : List XetShard) : List XetShard :=
  shards.filter fun s => decide (s.size < SMALL_SHARD_LIMIT)

/-- The entry regions compact_shards collects: for each source shard,
download its content and strip the 12-byte header; a shard whose
download raises is skipped with continue. -/
def shardFetchRegions (fetch : String → Option (List Nat)) (small : List XetShard) :
    List (List Nat) :=
  small.filterMap fun s => (fetch s.storage_key).map fun c => c.drop 12

/-- The merged shard blob compact_shards builds: a fresh header whose
count is the combined entry-region length divided by the 80-byte record
size, followed by the concatenated entry regions. -/
def mergedShardContent (fetch : String → Option (List Nat)) (small : List XetShard) :
    List Nat :=
  shardHeader ((shardFetchRegions fetch small).flatten.length / 80) ++
    (shardFetchRegions fetch small).flatten

/-- Models compact_shards as a state transformer: require at least two
small shards, collect their entry regions (skipping failed downloads),
and if any region was collected build the merged shard, upload it, and
in one transaction register it and delete every selected small shard
row (the source deletes all of small_shards, including any whose
download failed). uploadOk = false models the upload raising, which the
source catches, leaving registry and store unchanged. -/
def compact_shards (H : List Nat → String) (fetch : String → Option (List Nat))
    (uploadOk : Bool) (st : ShardState) : ShardState :=
  if (smallShards st.shards).length < 2 then st
  else if (shardFetchRegions fetch (smallShards st.shards)).isEmpty then st
  else if uploadOk then
    ⟨(st.shards.filter fun s => !(decide (s.size < SMALL_SHARD_LIMIT))) ++
       [⟨H (mergedShardContent fetch (smallShards st.shards)),
         get_xet_shard_s3_key (H (mergedShardContent fetch (smallShards st.shards))),
         (mergedShardContent fetch (smallShards st.shards)).length⟩],
     s3put st.store
       (get_xet_shard_s3_key (H (mergedShardContent fetch (smallShards st.shards))))
       (mergedShardContent fetch (smallShards st.shards))⟩
  else st

/-- The length of the entry region a source shard contributes: its
fetched content minus the 12-byte header, or nothing when the download
failed. -/
def fetchedRegionLength (fetch : String → Option (List Nat)) (s : XetShard) : Nat :=
  match fetch s.storage_key with
  | some c => c.length - 12
  | none => 0

/-- The number of 80-byte placement records a source shard contributes
to the merge: its entry-region length divided by 80, or nothing when
the download failed. -/
def fetchedEntryCount (fetch : String → Option (List Nat)) (s : XetShard) : Nat :=
  match fetch s.storage_key with
  | some c => (c.length - 12) / 80
  | none => 0

/-- The header built by shardHeader is 12 bytes. -/
theorem shardHeader_length (count : Nat) : (shardHeader count).length = 12 := by
  simp [shardHeader, beBytes, xshdMagic]

/-- The combined entry region is the sum of the contributed region
lengths. -/
theorem shardFetchRegions_flatten_length (fetch : String → Option (List Nat))
    (small : List XetShard) :
    (shardFetchRegions fetch small).flatten.length =
      (small.map (fetchedRegionLength fetch)).sum := by
  induction small with
  | nil => simp [shardFetchRegions]
  | cons s rest ih =>
    simp only [shardFetchRegions, List.filterMap_cons] at *
    cases h : fetch s.storage_key with
    | none => simpa [fetchedRegionLength, h] using ih
    | some c => simpa [fetchedRegionLength, h] using ih

/-- Dividing a sum of multiples of 80 by 80 is the sum of the
quotients. -/
theorem sum_div_eighty (l : List Nat) (h : ∀ x ∈ l, 80 ∣ x) :
    l.sum / 80 = (l.map (· / 80)).sum := by
  induction l with
  | nil => simp
  | cons a rest ih =>
    obtain ⟨x, hx⟩ := h a (by simp)
    have hrest := ih fun y hy => h y (by simp [hy])
    simp only [List.sum_cons, List.map_cons]
    rw [hx, Nat.mul_add_div (by omega), ← hrest, Nat.mul_div_cancel_left _ (by omega)]

/-- The per-shard contributed record count is the contributed region
length divided by 80. -/
theorem fetchedEntryCount_eq (fetch : String → Option (List Nat)) (s : XetShard) :
    fetchedEntryCount fetch s = fetchedRegionLength fetch s / 80 := by
  unfold fetchedEntryCount fetchedRegionLength
  cases fetch s.storage_key <;> simp

/-! ## Claim C6 -/

/-- The number of 80-byte records in the blob stored for a shard, as
read back from the store. -/
def storedEntryCount (store : List (String × List Nat)) (s : XetShard) : Nat :=
  match s3get store s.storage_key with
  | some c => (c.length - 12) / 80
  | none => 0

/-- First small source shard of the C6 scenario: 92 bytes, one record. -/
def c6ShardA : XetShard := ⟨"sa", "ka", 92⟩

/-- Second small source shard of the C6 scenario: 92 bytes, one record. -/
def c6ShardB : XetShard := ⟨"sb", "kb", 92⟩

/-- Stored blob of c6ShardA: a header announcing one record plus one
80-byte record. -/
def c6ContentA : List Nat := shardHeader 1 ++ List.replicate 80 7

/-- Stored blob of c6ShardB: a header announcing one record plus one
80-byte record. -/
def c6ContentB : List Nat := shardHeader 1 ++ List.replicate 80 9

/-- Initial shard-manager state of the C6 scenario: both small shards
registered and stored. -/
def c6State : ShardState :=
  ⟨[c6ShardA, c6ShardB], [("ka", c6ContentA), ("kb", c6ContentB)]⟩

/-- Fetch behaviour of the C6 scenario: shard A downloads fine, the
download of shard B raises (a transient store error). -/
def c6Fetch (key : String) : Option (List Nat) :=
  if key = "ka" then some c6ContentA else none

/-- Digest stand-in for the C6 scenario. -/
def c6H (_bytes : List Nat) : String := "sc"

/-- C6 counterexample: with two eligible small shards of one record
each, where the download of shard B raises, compact_shards still
merges, still deletes BOTH source shards, and the created shard holds
1 record while the deleted source shards held 2 records in total — the
claimed entry-count conservation over all deleted source shards fails. -/
theorem c6_counterexample_unread_shard_deleted :
    (compact_shards c6H c6Fetch true c6State).shards =
      [⟨"sc", get_xet_shard_s3_key "sc", 92⟩] ∧
    storedEntryCount (compact_shards c6H c6Fetch true c6State).store
      ⟨"sc", get_xet_shard_s3_key "sc", 92⟩ = 1 ∧
    storedEntryCount c6State.store c6ShardA + storedEntryCount c6State.store c6ShardB = 2 ∧
    (1 : Nat) ≠ 2 := by
  refine ⟨?_, ?_, ?_, ?_⟩ <;> decide

/-- C6 amended: compact_shards merges only when at least two shards are
under the 1 MiB threshold (with fewer it changes nothing); whenever it
merges, the record count of the newly created shard — both as computed
from the merged blob and as read back from the blob stored for the new
shard row — equals the sum of the record counts of the source shards
whose download succeeded; source shards whose download failed
contribute no records yet are deleted all the same. -/
theorem c6_compact_shards_amended (H : List Nat → String)
    (fetch : String → Option (List Nat)) (st : ShardState)
    (hwf : ∀ s ∈ smallShards st.shards, 80 ∣ fetchedRegionLength fetch s) :
    ((smallShards st.shards).length < 2 → compact_shards H fetch true st = st) ∧
    (2 ≤ (smallShards st.shards).length →
      shardFetchRegions fetch (smallShards st.shards) ≠ [] →
      ((mergedShardContent fetch (smallShards st.shards)).length - 12) / 80 =
        ((smallShards st.shards).map (fetchedEntryCount fetch)).sum ∧
      (compact_shards H fetch true st).shards =
        (st.shards.filter fun s => !(decide (s.size < SMALL_SHARD_LIMIT))) ++
          [⟨H (mergedShardContent fetch (smallShards st.shards)),
            get_xet_shard_s3_key (H (mergedShardContent fetch (smallShards st.shards))),
            (mergedShardContent fetch (smallShards st.shards)).length⟩] ∧
      storedEntryCount (compact_shards H fetch true st).store
          ⟨H (mergedShardContent fetch (smallShards st.shards)),
            get_xet_shard_s3_key (H (mergedShardContent fetch (smallShards st.shards))),
            (mergedShardContent fetch (smallShards st.shards)).length⟩ =
        ((smallShards st.shards).map (fetchedEntryCount fetch)).sum) := by
  constructor
  · intro hlt
    simp [compact_shards, hlt]
  · intro hge hne
    have hlt : ¬ (smallShards st.shards).length < 2 := by omega
    have hemp : (shardFetchRegions fetch (smallShards st.shards)).isEmpty = false := by
      simpa [List.isEmpty_iff] using hne
    have hcount : ((mergedShardContent fetch (smallShards st.shards)).length - 12) / 80 =
        ((smallShards st.shards).map (fetchedEntryCount fetch)).sum := by
      have hlen : (mergedShardContent fetch (smallShards st.shards)).length =
          12 + (shardFetchRegions fetch (smallShards st.shards)).flatten.length := by
        simp [mergedShardContent, shardHeader_length]
      rw [hlen, Nat.add_sub_cancel_left, shardFetchRegions_flatten_length,
        sum_div_eighty _ (by
          intro x hx
          obtain ⟨s, hs, rfl⟩ := List.mem_map.mp hx
          exact hwf s hs)]
      rw [List.map_map]
      congr 1
      exact List.map_congr_left fun s hs => (fetchedEntryCount_eq fetch s).symm
    refine ⟨hcount, ?_, ?_⟩
    · simp [compact_shards, hlt, hemp]
    · rw [← hcount]
      simp [compact_shards, hlt, hemp, storedEntryCount, s3get_s3put_self]

/-- C6 witness scenario fetch: both shards download fine. -/
def c6FetchOk (key : String) : Option (List Nat) :=
  if key = "ka" then some c6ContentA
  else if key = "kb" then some c6ContentB else none

/-- C6 witness: the amended theorem applied to the two-shard scenario
in which both downloads succeed; the merged shard holds 1 + 1 = 2
records — also as read back from the store — and the registry holds
exactly the replacement shard. -/
theorem c6_compact_shards_amended_witness :
    ((mergedShardContent c6FetchOk (smallShards c6State.shards)).length - 12) / 80 =
      ((smallShards c6State.shards).map (fetchedEntryCount c6FetchOk)).sum ∧
    (compact_shards c6H c6FetchOk true c6State).shards =
      (c6State.shards.filter fun s => !(decide (s.size < SMALL_SHARD_LIMIT))) ++
        [⟨c6H (mergedShardContent c6FetchOk (smallShards c6State.shards)),
          get_xet_shard_s3_key (c6H (mergedShardContent c6FetchOk (smallShards c6State.shards))),
          (mergedShardContent c6FetchOk (smallShards c6State.shards)).length⟩] ∧
    storedEntryCount (compact_shards c6H c6FetchOk true c6State).store
        ⟨c6H (mergedShardContent c6FetchOk (smallShards c6State.shards)),
          get_xet_shard_s3_key (c6H (mergedShardContent c6FetchOk (smallShards c6State.shards))),
          (mergedShardContent c6FetchOk (smallShards c6State.shards)).length⟩ =
      ((smallShards c6State.shards).map (fetchedEntryCount c6FetchOk)).sum :=
  (c6_compact_shards_amended c6H c6FetchOk c6State (by decide)).2 (by decide) (by decide)

/-! ## Claim C7 -/

/-- Externally visible steps of one compact_shards run, in program
order, with the database transaction structure explicit: the upload of
the replacement blob and the origin deletions of source blobs
(s3.put_object / s3.delete_object) are durable the moment they execute;
the insert of the replacement row (XetShard.create, shard_manager.py
line 135) and the source row deletions (delete_instance, line 147)
execute inside the open db.atomic transaction and become durable only
at commitTxn, when the with block exits — and are discarded if the run
stops before commitTxn. -/
inductive ShardOp where
  | uploadShard (sid : String)
  | beginTxn
  | insertShardRow (sid : String)
  | deleteShardObject (key : String)
  | deleteShardRow (sid : String)
  | commitTxn
  deriving DecidableEq

/-- The ordered step trace of one compact_shards run: nothing below two
small shards, nothing when every download failed, nothing durable when
the upload raises, and otherwise the upload, the transaction open, the
replacement row insert, the interleaved per-source origin and row
deletions in source order, and the commit last. A prefix of this trace
is a reachable crash (or mid-loop exception) state. -/
def compact_shards_trace (H : List Nat → String) (fetch : String → Option (List Nat))
    (uploadOk : Bool) (shards : List XetShard) : List ShardOp :=
  if (smallShards shards).length < 2 then []
  else if (shardFetchRegions fetch (smallShards shards)).isEmpty then []
  else if uploadOk then
    ShardOp.uploadShard (H (mergedShardContent fetch (smallShards shards))) ::
      ShardOp.beginTxn ::
      ShardOp.insertShardRow (H (mergedShardContent fetch (smallShards shards))) ::
      (((smallShards shards).flatMap fun s =>
        [ShardOp.deleteShardObject s.storage_key, ShardOp.deleteShardRow s.shard_id]) ++
       [ShardOp.commitTxn])
  else []

/-- In the crash state left by a prefix of the trace, the replacement
shard is durably registered only when its row insert AND the commit
both lie in the prefix: an uncommitted insert is rolled back. -/
def replacementRegistered (pre : List ShardOp) (sid : String) : Prop :=
  ShardOp.insertShardRow sid ∈ pre ∧ ShardOp.commitTxn ∈ pre

/-- In the crash state left by a prefix of the trace, the replacement
blob is durably in the store once its upload lies in the prefix. -/
def replacementUploaded (pre : List ShardOp) (sid : String) : Prop :=
  ShardOp.uploadShard sid ∈ pre

/-- In the crash state left by a prefix of the trace, a source shard's
blob is gone from the origin once its s3.delete_object lies in the
prefix: origin deletions are immediate and are not rolled back by the
database transaction. -/
def sourceObjectDeleted (pre : List ShardOp) (key : String) : Prop :=
  ShardOp.deleteShardObject key ∈ pre

/-- C7: refuted; the code is at fault. In the two-small-shard run with
both downloads succeeding, the reachable state after step 4 — the
origin deletion of the first source shard — has that source blob
deleted from the origin while the replacement, though uploaded, is NOT
durably registered: its row insert sits in the still-open transaction,
which commits only after all source deletions and is rolled back if the
deletion loop raises or the process crashes there. This is exactly the
intermediate state the claim declares unreachable. -/
theorem c7_source_deleted_while_replacement_unregistered :
    sourceObjectDeleted
      ((compact_shards_trace c6H c6FetchOk true c6State.shards).take 4) "ka" ∧
    replacementUploaded
      ((compact_shards_trace c6H c6FetchOk true c6State.shards).take 4) "sc" ∧
    ¬ replacementRegistered
      ((compact_shards_trace c6H c6FetchOk true c6State.shards).take 4) "sc" := by
  unfold sourceObjectDeleted replacementUploaded replacementRegistered
  refine ⟨?_, ?_, ?_⟩ <;> decide

/-! ## Claim C8: sealing one xorb from a batch (_create_xorb_from_batch) -/

/-- The fetch-and-concatenate loop of _create_xorb_from_batch, in the
accumulator form of the source: for each block of the batch, fetch its
standalone object; on success append its bytes to the xorb content,
record a placement at the running offset with the block's registry
size, and advance the offset by that size; on failure skip the block
and continue. -/
def xorbLoop (fetch : String → Option (List Nat)) (xid : String) :
    List XetBlock → List Nat → Nat → List XetBlockPlacement →
      List Nat × List XetBlockPlacement
  | [], xorb_content, _, placements => (xorb_content, placements)
  | b :: rest, xorb_content, offset, placements =>
    match fetch (get_xet_block_s3_key b.hash) with
    | some data =>
      xorbLoop fetch xid rest (xorb_content ++ data) (offset + b.size)
        (placements ++ [⟨b.hash, xid, offset, b.size⟩])
    | none => xorbLoop fetch xid rest xorb_content offset placements

/-- Models _create_xorb_from_batch: run the loop from empty
accumulators; if no bytes were collected return without sealing,
otherwise seal a xorb whose recorded size is the content length,
together with the placement rows created in the same transaction. -/
def create_xorb_from_batch (fetch : String → Option (List Nat)) (xid : String)
    (blocks : List XetBlock) : Option (Nat × List XetBlockPlacement) :=
  if (xorbLoop fetch xid blocks [] 0 []).1.isEmpty then none
  else some ((xorbLoop fetch xid blocks [] 0 []).1.length, (xorbLoop fetch xid blocks [] 0 []).2)

/-- Accumulator-free restatement of xorbLoop, for the inductive
proofs. -/
def xorbSpec (fetch : String → Option (List Nat)) (xid : String) :
    List XetBlock → Nat → List Nat × List XetBlockPlacement
  | [], _ => ([], [])
  | b :: rest, offset =>
    match fetch (get_xet_block_s3_key b.hash) with
    | some data =>
      (data ++ (xorbSpec fetch xid rest (offset + b.size)).1,
       ⟨b.hash, xid, offset, b.size⟩ :: (xorbSpec fetch xid rest (offset + b.size)).2)
    | none => xorbSpec fetch xid rest offset

/-- The loop equals its accumulator-free restatement. -/
theorem xorbLoop_eq_spec (fetch : String → Option (List Nat)) (xid : String)
    (blocks : List XetBlock) (content : List Nat) (offset : Nat)
    (pls : List XetBlockPlacement) :
    xorbLoop fetch xid blocks content offset pls =
      (content ++ (xorbSpec fetch xid blocks offset).1,
       pls ++ (xorbSpec fetch xid blocks offset).2) := by
  induction blocks generalizing content offset pls with
  | nil => simp [xorbLoop, xorbSpec]
  | cons b rest ih =>
    simp only [xorbLoop, xorbSpec]
    cases fetch (get_xet_block_s3_key b.hash) with
    | none => exact ih content offset pls
    | some data => simp [ih]

/-- When every successful fetch returns a block's registered number of
bytes, the collected content length is the sum of the created
placements' lengths. -/
theorem xorbSpec_length (fetch : String → Option (List Nat)) (xid : String)
    (blocks : List XetBlock) (offset : Nat)
    (hfetch : ∀ b ∈ blocks, ∀ d, fetch (get_xet_block_s3_key b.hash) = some d →
      d.length = b.size) :
    (xorbSpec fetch xid blocks offset).1.length =
      ((xorbSpec fetch xid blocks offset).2.map XetBlockPlacement.length).sum := by
  induction blocks generalizing offset with
  | nil => simp [xorbSpec]
  | cons b rest ih =>
    have hrest := fun o => ih o fun x hx => hfetch x (by simp [hx])
    simp only [xorbSpec]
    cases h : fetch (get_xet_block_s3_key b.hash) with
    | none => exact hrest offset
    | some data =>
      have hd : data.length = b.size := hfetch b (by simp) data h
      simp [hd, hrest (offset + b.size)]

/-- Each placement's offset is the running sum that starts at the given
offset. -/
def offsetsFrom : Nat → List XetBlockPlacement → Prop
  | _, [] => True
  | o, p :: rest => p.offset = o ∧ offsetsFrom (o + p.length) rest

/-- The placements created by the loop carry the running offsets. -/
theorem xorbSpec_offsetsFrom (fetch : String → Option (List Nat)) (xid : String)
    (blocks : List XetBlock) (offset : Nat) :
    offsetsFrom offset (xorbSpec fetch xid blocks offset).2 := by
  induction blocks generalizing offset with
  | nil => simp [xorbSpec, offsetsFrom]
  | cons b rest ih =>
    simp only [xorbSpec]
    cases fetch (get_xet_block_s3_key b.hash) with
    | none => exact ih offset
    | some data => exact ⟨rfl, ih (offset + b.size)⟩

/-- Running offsets, read pointwise: the i-th placement's offset is the
base plus the lengths of the placements before it. -/
theorem offsetsFrom_get (l : List XetBlockPlacement) (o : Nat) (h : offsetsFrom o l)
    (i : Nat) (hi : i < l.length) :
    (l.get ⟨i, hi⟩).offset = o + ((l.take i).map XetBlockPlacement.length).sum := by
  induction l generalizing o i with
  | nil => simp at hi
  | cons p rest ih =>
    obtain ⟨hp, hrest⟩ := h
    match i with
    | 0 => simpa using hp
    | n + 1 =>
      have := ih (o + p.length) hrest n (by simpa using hi)
      simp only [List.get_cons_succ, List.take_succ_cons, List.map_cons, List.sum_cons]
      omega

/-- With running offsets from a base, every placement ends within the
base plus the total of the lengths. -/
theorem offsetsFrom_le_sum (l : List XetBlockPlacement) (o : Nat) (h : offsetsFrom o l) :
    ∀ p ∈ l, p.offset + p.length ≤ o + (l.map XetBlockPlacement.length).sum := by
  induction l generalizing o with
  | nil => simp
  | cons q rest ih =>
    obtain ⟨hq, hrest⟩ := h
    intro p hp
    rcases List.mem_cons.mp hp with rfl | hp
    · simp only [List.map_cons, List.sum_cons, hq]
      omega
    · have := ih (o + q.length) hrest p hp
      simp only [List.map_cons, List.sum_cons]
      omega

/-- C8: for every xorb sealed by the compactor — also on sweeps where
some blocks' fetches failed and those blocks were skipped — the
recorded xorb size equals the sum of the placements' lengths, every
placement's offset is the sum of the lengths of the placements
preceding it in the batch, and every placement fits inside the xorb
(offset + length ≤ size); assuming the durable store holds each
fetched block under its registered size. -/
theorem c8_sealed_xorb_invariants (fetch : String → Option (List Nat)) (xid : String)
    (blocks : List XetBlock)
    (hfetch : ∀ b ∈ blocks, ∀ d, fetch (get_xet_block_s3_key b.hash) = some d →
      d.length = b.size)
    (sz : Nat) (pls : List XetBlockPlacement)
    (hsome : create_xorb_from_batch fetch xid blocks = some (sz, pls)) :
    sz = (pls.map XetBlockPlacement.length).sum ∧
    (∀ i (hi : i < pls.length),
      (pls.get ⟨i, hi⟩).offset = ((pls.take i).map XetBlockPlacement.length).sum) ∧
    (∀ p ∈ pls, p.offset + p.length ≤ sz) := by
  have hloop := xorbLoop_eq_spec fetch xid blocks [] 0 []
  unfold create_xorb_from_batch at hsome
  rw [hloop] at hsome
  simp only [List.nil_append] at hsome
  split at hsome
  · exact absurd hsome (by simp)
  · rw [Option.some_inj, Prod.mk.injEq] at hsome
    obtain ⟨rfl, rfl⟩ := hsome
    have hoff := xorbSpec_offsetsFrom fetch xid blocks 0
    refine ⟨xorbSpec_length fetch xid blocks 0 hfetch, ?_, ?_⟩
    · intro i hi
      simpa using offsetsFrom_get _ 0 hoff i hi
    · intro p hp
      have := offsetsFrom_le_sum _ 0 hoff p hp
      rw [xorbSpec_length fetch xid blocks 0 hfetch]
      omega

/-- Fetch behaviour of the C8 witness scenario: block b1 (3 bytes) and
block b3 (2 bytes) are stored under their registered sizes; the fetch
of block b2 fails. -/
def c8Fetch (key : String) : Option (List Nat) :=
  if key = get_xet_block_s3_key "b1" then some [1, 2, 3]
  else if key = get_xet_block_s3_key "b3" then some [4, 5] else none

/-- C8 witness: sealing a batch of three blocks where the middle fetch
fails yields a xorb of size 5 with two placements, at offsets 0 and 3,
satisfying all three invariants. -/
theorem c8_sealed_xorb_invariants_witness :
    (5 : Nat) = (([⟨"b1", "x0", 0, 3⟩, ⟨"b3", "x0", 3, 2⟩] :
        List XetBlockPlacement).map XetBlockPlacement.length).sum ∧
    (∀ i (hi : i < ([⟨"b1", "x0", 0, 3⟩, ⟨"b3", "x0", 3, 2⟩] :
        List XetBlockPlacement).length),
      ((([⟨"b1", "x0", 0, 3⟩, ⟨"b3", "x0", 3, 2⟩] :
        List XetBlockPlacement)).get ⟨i, hi⟩).offset =
        ((([⟨"b1", "x0", 0, 3⟩, ⟨"b3", "x0", 3, 2⟩] :
          List XetBlockPlacement)).take i |>.map XetBlockPlacement.length).sum) ∧
    (∀ p ∈ ([⟨"b1", "x0", 0, 3⟩, ⟨"b3", "x0", 3, 2⟩] : List XetBlockPlacement),
      p.offset + p.length ≤ 5) :=
  c8_sealed_xorb_invariants c8Fetch "x0" [⟨"b1", 3⟩, ⟨"b2", 7⟩, ⟨"b3", 2⟩]
    (by decide) 5 [⟨"b1", "x0", 0, 3⟩, ⟨"b3", "x0", 3, 2⟩] (by decide)

/-! ## Metrics (metrics.py) and cache-tier primitives (utils/xet.py) -/

/-- The XetMetrics counters. -/
structure XetMetrics where
  dedup_hits : Nat
  dedup_misses : Nat
  total_bytes_saved : Nat
  total_bytes_uploaded : Nat
  deriving DecidableEq

/-- Models XetMetrics.record_dedup. -/
def record_dedup (m : XetMetrics) (hit : Bool) (size : Nat) : XetMetrics :=
  if hit then
    { m with dedup_hits := m.dedup_hits + 1,
             total_bytes_saved := m.total_bytes_saved + size }
  else
    { m with dedup_misses := m.dedup_misses + 1,
             total_bytes_uploaded := m.total_bytes_uploaded + size }

/-- Models a Redis set add (mark_block_as_existing, and the fallback of
mark_block_in_bloom): adds the element when absent. -/
def setAdd (s : List String) (x : String) : List String :=
  if s.contains x then s else s ++ [x]

/-- The element just added is in the set. -/
theorem setAdd_mem (s : List String) (x : String) : x ∈ setAdd s x := by
  unfold setAdd
  split <;> simp_all

/-- Models XetBlock.get_or_create keyed by hash: return the existing
row unchanged when present, else append a row with the default size.
Returns the row found or created, and the updated table. -/
def blockGetOrCreate (registry : List XetBlock) (block_hash : String) (defaultSize : Nat) :
    XetBlock × List XetBlock :=
  match registry.find? fun b => b.hash = block_hash with
  | some b => (b, registry)
  | none => (⟨block_hash, defaultSize⟩, registry ++ [⟨block_hash, defaultSize⟩])

/-- After get_or_create, a row with the hash is present. -/
theorem blockGetOrCreate_find (registry : List XetBlock) (block_hash : String)
    (defaultSize : Nat) :
    (((blockGetOrCreate registry block_hash defaultSize).2.find?
      fun b => b.hash = block_hash)).isSome = true := by
  unfold blockGetOrCreate
  cases hfind : registry.find? fun b => b.hash = block_hash with
  | some b => simp [hfind]
  | none => simp [List.find?_append, hfind, List.find?]

/-! ## Claim C3: PUT /blocks (put_block in routers/cas.py) -/

/-- State touched by the CAS block endpoints: the S3 store, the
XetBlock registry, the local disk cache, the Redis hot cache, the Redis
membership set, the bloom tier, and the metrics singleton. All cache
tiers are modelled as available; their unavailability only turns
individual tier operations into no-ops in the source. -/
structure CasState where
  store : List (String × List Nat)
  registry : List XetBlock
  diskCache : List (String × List Nat)
  hotCache : List (String × List Nat)
  memberSet : List String
  bloom : List String
  metrics : XetMetrics
  deriving DecidableEq

/-- Models put_block: verify that the digest of the body equals the
path hash, returning 400 with no side effect on mismatch; otherwise
upload to S3, get-or-create the registry row, record a dedup miss of
the body size, write the disk cache, write the hot cache (which also
adds to the membership set), mark the block as existing, mark it in the
bloom tier, and return 200 with the hash and size. -/
def put_block (H : List Nat → String) (block_hash : String) (content : List Nat)
    (st : CasState) : (Nat × Option (String × Nat)) × CasState :=
  if H content ≠ block_hash then ((400, none), st)
  else
    ((200, some (block_hash, content.length)),
     { store := s3put st.store (get_xet_block_s3_key block_hash) content,
       registry := (blockGetOrCreate st.registry block_hash content.length).2,
       diskCache := s3put st.diskCache block_hash content,
       hotCache := s3put st.hotCache block_hash content,
       memberSet := setAdd (setAdd st.memberSet block_hash) block_hash,
       bloom := setAdd st.bloom block_hash,
       metrics := record_dedup st.metrics false content.length })

/-- C3: on a digest mismatch put_block returns 400 and the entire state
(store, registry, caches, membership tiers, metrics) is unchanged; on a
match it returns 200 with the hash and the body length, and the body is
retrievable from the store under the block key, a registry row with the
hash exists, the disk and hot caches hold the body, and the membership
and bloom tiers contain the hash. -/
theorem c3_put_block_integrity (H : List Nat → String) (block_hash : String)
    (content : List Nat) (st : CasState) :
    (H content ≠ block_hash →
      put_block H block_hash content st = ((400, none), st)) ∧
    (H content = block_hash →
      (put_block H block_hash content st).1 = (200, some (block_hash, content.length)) ∧
      s3get (put_block H block_hash content st).2.store
        (get_xet_block_s3_key block_hash) = some content ∧
      ((put_block H block_hash content st).2.registry.find?
        fun b => b.hash = block_hash).isSome = true ∧
      s3get (put_block H block_hash content st).2.diskCache block_hash = some content ∧
      s3get (put_block H block_hash content st).2.hotCache block_hash = some content ∧
      (put_block H block_hash content st).2.memberSet.contains block_hash = true ∧
      (put_block H block_hash content st).2.bloom.contains block_hash = true) := by
  constructor
  · intro h
    simp [put_block, h]
  · intro h
    simp [put_block, h, s3get_s3put_self, blockGetOrCreate_find, setAdd_mem]

/-- Digest stand-in for the C3 witness: the empty body digests to he,
anything else to hx. -/
def c3H (bytes : List Nat) : String := if bytes = [] then "he" else "hx"

/-- Initial state of the C3 witness scenario: everything empty. -/
def c3State : CasState := ⟨[], [], [], [], [], [], ⟨0, 0, 0, 0⟩⟩

/-- C3 witness: putting an empty body under the wrong hash zz returns
400 leaving the state untouched; putting it under its digest he returns
200 with the size 0 and backfills the tiers. -/
theorem c3_put_block_integrity_witness :
    put_block c3H "zz" [] c3State = ((400, none), c3State) ∧
    (put_block c3H "he" [] c3State).1 = (200, some ("he", 0)) ∧
    (put_block c3H "he" [] c3State).2.memberSet.contains "he" = true ∧
    (put_block c3H "he" [] c3State).2.bloom.contains "he" = true := by
  have h1 := (c3_put_block_integrity c3H "zz" [] c3State).1 (by decide)
  have h2 := (c3_put_block_integrity c3H "he" [] c3State).2 (by decide)
  exact ⟨h1, h2.1, h2.2.2.2.2.2.1, h2.2.2.2.2.2.2⟩

/-! ## Claim C9: HEAD /blocks (head_block in routers/cas.py) -/

/-- State touched by head_block: the bloom tier, the membership set,
the registry, and the metrics singleton. -/
structure HeadState where
  bloom : List String
  memberSet : List String
  registry : List XetBlock
  metrics : XetMetrics
  deriving DecidableEq

/-- Models head_block: probe the bloom tier, then the membership set,
then the registry (backfilling the membership set and recording a
dedup hit of the row's size), then the origin store; an origin-only hit
get-or-creates the registry row with default size 0, backfills the
membership set, and records a dedup hit of that row's size; 404 when
every tier misses. -/
def head_block (block_hash : String) (originExists : Bool) (st : HeadState) :
    Nat × HeadState :=
  if st.bloom.contains block_hash then (200, st)
  else if st.memberSet.contains block_hash then (200, st)
  else
    match st.registry.find? fun b => b.hash = block_hash with
    | some b =>
      (200, { st with memberSet := setAdd st.memberSet block_hash,
                      metrics := record_dedup st.metrics true b.size })
    | none =>
      if originExists then
        (200, { st with
          registry := (blockGetOrCreate st.registry block_hash 0).2,
          memberSet := setAdd st.memberSet block_hash,
          metrics := record_dedup st.metrics true
            (blockGetOrCreate st.registry block_hash 0).1.size })
      else (404, st)

/-- A block row of size 0 is never selected by the compaction sweep,
whatever the registry and placements are. -/
theorem zero_size_never_selected (block_hash : String) (registry : List XetBlock)
    (placedHashes : List String) :
    (⟨block_hash, 0⟩ : XetBlock) ∉ selectUnplacedBlocks registry placedHashes := by
  intro hmem
  have hf := List.take_subset 1000 _ hmem
  have := (List.mem_filter.mp hf).2
  simp at this

/-- C9: when the bloom tier, the membership set and the registry all
miss but the origin store has the object, head_block returns 200,
creates the registry row with size 0, records its dedup hit with size 0
(hits up by one, bytes saved unchanged), and a block row of size 0 is
never selected by a compaction sweep, which requires size > 0. -/
theorem c9_origin_only_head_registers_size_zero (block_hash : String) (st : HeadState)
    (hb : st.bloom.contains block_hash = false)
    (hm : st.memberSet.contains block_hash = false)
    (hr : (st.registry.find? fun b => b.hash = block_hash) = none) :
    (head_block block_hash true st).1 = 200 ∧
    (head_block block_hash true st).2.registry = st.registry ++ [⟨block_hash, 0⟩] ∧
    (head_block block_hash true st).2.metrics.dedup_hits = st.metrics.dedup_hits + 1 ∧
    (head_block block_hash true st).2.metrics.total_bytes_saved =
      st.metrics.total_bytes_saved ∧
    (∀ placedHashes, (⟨block_hash, 0⟩ : XetBlock) ∉
      selectUnplacedBlocks (head_block block_hash true st).2.registry placedHashes) := by
  have hb2 : ¬ block_hash ∈ st.bloom := by simpa using hb
  have hm2 : ¬ block_hash ∈ st.memberSet := by simpa using hm
  refine ⟨?_, ?_, ?_, ?_, ?_⟩ <;>
    simp [head_block, hb2, hm2, hr, blockGetOrCreate, record_dedup,
      zero_size_never_selected]

/-- C9 witness: on the empty state with an origin hit for hash hb, the
head endpoint returns 200, registers the row with size 0, and the row
is not selected with an empty placement list. -/
theorem c9_origin_only_head_registers_size_zero_witness :
    (head_block "hb" true ⟨[], [], [], ⟨0, 0, 0, 0⟩⟩).1 = 200 ∧
    (head_block "hb" true ⟨[], [], [], ⟨0, 0, 0, 0⟩⟩).2.registry = [⟨"hb", 0⟩] ∧
    (⟨"hb", 0⟩ : XetBlock) ∉
      selectUnplacedBlocks (head_block "hb" true ⟨[], [], [], ⟨0, 0, 0, 0⟩⟩).2.registry [] := by
  have h := c9_origin_only_head_registers_size_zero "hb" ⟨[], [], [], ⟨0, 0, 0, 0⟩⟩
    (by decide) (by decide) (by decide)
  exact ⟨h.1, h.2.1, h.2.2.2.2 []⟩

/-! ## Claim C10: synthetic reconstruction (_generate_chunked_reconstruction) -/

/-- The synthetic-reconstruction window cap: 64 MiB, kept below the
32-bit range limit of the consuming client. -/
def CHUNK_SIZE_BYTES : Nat := 64 * 1024 * 1024

/-- An index range of the wire document; stop models the wire field
named end (a Lean keyword). -/
structure IdxRange where
  start : Nat
  stop : Nat
  deriving DecidableEq

/-- A term of the wire document. -/
structure ReconTerm where
  hash : String
  unpacked_length : Nat
  range : IdxRange
  deriving DecidableEq

/-- A fetch descriptor of the wire document. -/
structure FetchEntry where
  range : IdxRange
  url : String
  url_range : IdxRange
  deriving DecidableEq

/-- The wire document: offset_into_first_range, terms, and fetch_info
as an association from term hash to descriptors (Python dict insertion
order preserved). -/
structure ReconResponse where
  offset_into_first_range : Nat
  terms : List ReconTerm
  fetch_info : List (String × List FetchEntry)
  deriving DecidableEq

/-- The window list of _generate_chunked_reconstruction: a single (0, 0)
window for an empty file, else ceil(size / cap) windows of up to the
cap, as (start, stop) byte positions. -/
def reconChunks (file_size : Nat) : List (Nat × Nat) :=
  if file_size = 0 then [(0, 0)]
  else
    (List.range ((file_size + CHUNK_SIZE_BYTES - 1) / CHUNK_SIZE_BYTES)).map
      fun i => (i * CHUNK_SIZE_BYTES, min (i * CHUNK_SIZE_BYTES + CHUNK_SIZE_BYTES) file_size)

/-- Models str.encode for the ASCII strings fed to the per-window
digest. -/
def strBytes (s : String) : List Nat := s.toList.map Char.toNat

/-- The correlation key of a window: the file's own id when there is
exactly one window, else the digest of file_id-chunk plus the window
index. -/
def reconChunkHash (H : List Nat → String) (file_id : String) (num_chunks idx : Nat) :
    String :=
  if num_chunks = 1 then file_id
  else H (strBytes (file_id ++ "-chunk" ++ toString idx))

/-- Models _generate_chunked_reconstruction: one term and one fetch
descriptor per window; the term carries the window's correlation key,
its byte length, and the logical index range (idx, idx + 1); the fetch
descriptor carries the same index range, the presigned url, and the
inclusive byte range (start, stop - 1), written (start, 0) for an empty
window. -/
def generate_chunked_reconstruction (H : List Nat → String) (file_id : String)
    (file_size : Nat) (presigned_url : String) : ReconResponse :=
  ⟨0,
   (reconChunks file_size).enum.map fun p =>
     ⟨reconChunkHash H file_id (reconChunks file_size).length p.1,
      p.2.2 - p.2.1, ⟨p.1, p.1 + 1⟩⟩,
   (reconChunks file_size).enum.map fun p =>
     (reconChunkHash H file_id (reconChunks file_size).length p.1,
      [⟨⟨p.1, p.1 + 1⟩, presigned_url,
        ⟨p.2.1, if 0 < p.2.2 - p.2.1 then p.2.2 - 1 else 0⟩⟩])⟩

/-! ## Claim C4: chunking (chunk_lfs_file in chunker.py) -/

/-- The fixed chunking window: 4 MiB. -/
def CHUNK_TARGET_SIZE : Nat := 4 * 1024 * 1024

/-- The fixed-size windows of the chunking loop, one per step of
range(0, len(content), CHUNK_TARGET_SIZE): each step takes the next
window of up to CHUNK_TARGET_SIZE bytes, so the last window may be
shorter and an empty content yields no window. The fuel argument only
bounds the recursion: every step consumes at least one byte, so
content.length steps always suffice and the zero-fuel case is
unreachable. -/
def chunkWindowsAux : Nat → List Nat → List (List Nat)
  | _, [] => []
  | 0, _ => []
  | fuel + 1, content =>
    content.take CHUNK_TARGET_SIZE :: chunkWindowsAux fuel (content.drop CHUNK_TARGET_SIZE)

/-- The windows of one content, as cut by the chunking loop. -/
def chunkWindows (content : List Nat) : List (List Nat) :=
  chunkWindowsAux content.length content

/-- The (digest, bytes) pairs the chunking loop collects, in window
order. -/
def chunkRows (H : List Nat → String) (content : List Nat) : List (String × List Nat) :=
  (chunkWindows content).map fun w => (H w, w)

/-- The fields of a File row that chunk_lfs_file reads: row id, sha256,
and the LFS-eligibility flag. -/
structure FileRec where
  fid : Nat
  sha : String
  lfs : Bool
  deriving DecidableEq

/-- Row of the XetFileLayout registry table. -/
structure LayoutEntry where
  fileId : Nat
  blockHash : String
  sequence_order : Nat
  deriving DecidableEq

/-- State touched by the chunker: the XetFileLayout table, the XetBlock
table, and the S3 store. -/
structure ChunkerState where
  layouts : List LayoutEntry
  registry : List XetBlock
  store : List (String × List Nat)
  deriving DecidableEq

/-- The FileLayout rows of one file. -/
def layoutFor (st : ChunkerState) (fid : Nat) : List LayoutEntry :=
  st.layouts.filter fun e => decide (e.fileId = fid)

/-- One iteration of the chunking transaction body: get-or-create the
block row with the window's size, upload the window bytes under the
block key, and append the layout row at the running sequence index. -/
def chunkerStep (fid : Nat) (acc : ChunkerState × Nat) (cw : String × List Nat) :
    ChunkerState × Nat :=
  (⟨acc.1.layouts ++ [⟨fid, cw.1, acc.2⟩],
    (blockGetOrCreate acc.1.registry cw.1 cw.2.length).2,
    s3put acc.1.store (get_xet_block_s3_key cw.1) cw.2⟩,
   acc.2 + 1)

/-- The committed db.atomic transaction of chunk_lfs_file: the loop
over all windows from sequence index 0. -/
def chunkerTxn (H : List Nat → String) (f : FileRec) (content : List Nat)
    (st : ChunkerState) : ChunkerState :=
  ((chunkRows H content).foldl (chunkerStep f.fid) (st, 0)).1

/-- The store as left by a transaction that raises at the k-th window:
the uploads already performed persist (S3 writes are not part of the
database transaction), while every registry write is rolled back. -/
def chunkerAbortStore (H : List Nat → String) (content : List Nat) (k : Nat)
    (store : List (String × List Nat)) : List (String × List Nat) :=
  ((chunkRows H content).take k).foldl
    (fun acc cw => s3put acc (get_xet_block_s3_key cw.1) cw.2) store

/-- Models chunk_lfs_file: skip non-LFS files; skip (reporting success)
files that already have a layout row; abort before any transaction when
the raw object cannot be fetched; otherwise run the chunking loop in
one atomic transaction. abortAt = some k models the transaction body
raising at the k-th window: db.atomic rolls back every registry write,
so layouts and registry revert to the initial state, and the function
reports failure. -/
def chunk_lfs_file (H : List Nat → String) (f : FileRec) (fetched : Option (List Nat))
    (abortAt : Option Nat) (st : ChunkerState) : Bool × ChunkerState :=
  if !f.lfs then (false, st)
  else if st.layouts.any fun e => decide (e.fileId = f.fid) then (true, st)
  else
    match fetched with
    | none => (false, st)
    | some content =>
      match abortAt with
      | none => (true, chunkerTxn H f content st)
      | some k => (false, ⟨st.layouts, st.registry, chunkerAbortStore H content k st.store⟩)

/-- The layout rows the loop appends, carrying consecutive sequence
indices from a base. -/
def layoutFromSeq (fid : Nat) : Nat → List (String × List Nat) → List LayoutEntry
  | _, [] => []
  | n, cw :: rest => ⟨fid, cw.1, n⟩ :: layoutFromSeq fid (n + 1) rest

/-- The complete layout of a file's content: one row per window, with
gapless sequence indices starting at 0. -/
def completeLayout (H : List Nat → String) (fid : Nat) (content : List Nat) :
    List LayoutEntry :=
  layoutFromSeq fid 0 (chunkRows H content)

/-- The transaction loop appends exactly the rows of layoutFromSeq. -/
theorem chunkerTxn_layouts (fid : Nat) (rows : List (String × List Nat))
    (st : ChunkerState) (n : Nat) :
    ((rows.foldl (chunkerStep fid) (st, n)).1).layouts =
      st.layouts ++ layoutFromSeq fid n rows := by
  induction rows generalizing st n with
  | nil => simp [layoutFromSeq]
  | cons cw rest ih =>
    simp only [List.foldl_cons, chunkerStep]
    rw [ih]
    simp [layoutFromSeq]

/-- Pointwise reading of layoutFromSeq: the k-th row is built from the
k-th chunk, at sequence index base + k. -/
theorem layoutFromSeq_getElem (fid n k : Nat) (rows : List (String × List Nat)) :
    (layoutFromSeq fid n rows)[k]? = rows[k]?.map fun cw => ⟨fid, cw.1, n + k⟩ := by
  induction rows generalizing n k with
  | nil => simp [layoutFromSeq]
  | cons cw rest ih =>
    match k with
    | 0 => simp [layoutFromSeq]
    | k + 1 =>
      simp only [layoutFromSeq, List.getElem?_cons_succ]
      rw [ih (n + 1) k]
      have hnk : n + 1 + k = n + (k + 1) := by omega
      rw [hnk]

/-- Every row of layoutFromSeq belongs to the file, so filtering by the
file keeps all of them. -/
theorem layoutFromSeq_filter_self (fid n : Nat) (rows : List (String × List Nat)) :
    (layoutFromSeq fid n rows).filter (fun e => decide (e.fileId = fid)) =
      layoutFromSeq fid n rows := by
  induction rows generalizing n with
  | nil => simp [layoutFromSeq]
  | cons cw rest ih => simp [layoutFromSeq, ih]

/-- C4: for a chunkable file with no prior layout, all registry writes
of one chunking run commit atomically — after the run the file's layout
is either the complete layout (one row per fixed-size window, gapless
sequence indices from 0: row k is built from window k at index k) or
empty, with the registry reverted, when the transaction raises at any
window — and a failure to fetch the raw object returns before any
transaction, leaving the whole state unchanged. -/
theorem c4_chunking_atomic (H : List Nat → String) (f : FileRec)
    (fetched : Option (List Nat)) (abortAt : Option Nat) (st : ChunkerState)
    (hlfs : f.lfs = true) (hnew : layoutFor st f.fid = []) :
    (fetched = none → chunk_lfs_file H f fetched abortAt st = (false, st)) ∧
    (∀ content, fetched = some content →
      (abortAt = none →
        layoutFor (chunk_lfs_file H f fetched abortAt st).2 f.fid =
          completeLayout H f.fid content) ∧
      (∀ k, abortAt = some k →
        layoutFor (chunk_lfs_file H f fetched abortAt st).2 f.fid = [] ∧
        (chunk_lfs_file H f fetched abortAt st).2.registry = st.registry ∧
        (chunk_lfs_file H f fetched abortAt st).2.layouts = st.layouts)) ∧
    (∀ content k,
      (completeLayout H f.fid content)[k]? =
        ((chunkWindows content)[k]?).map fun w => (⟨f.fid, H w, k⟩ : LayoutEntry)) := by
  have hany : (st.layouts.any fun e => decide (e.fileId = f.fid)) = false := by
    rw [List.any_eq_false]
    intro e he
    exact (List.filter_eq_nil_iff.mp hnew) e he
  refine ⟨?_, ?_, ?_⟩
  · intro hf
    simp [chunk_lfs_file, hlfs, hany, hf]
  · intro content hf
    subst hf
    constructor
    · intro ha
      subst ha
      simp only [chunk_lfs_file, hlfs, Bool.not_true, Bool.false_eq_true, if_false, hany]
      unfold layoutFor chunkerTxn
      rw [chunkerTxn_layouts, List.filter_append, layoutFromSeq_filter_self]
      have : st.layouts.filter (fun e => decide (e.fileId = f.fid)) = [] := hnew
      rw [this]
      simp [completeLayout]
    · intro k ha
      subst ha
      simp only [chunk_lfs_file, hlfs, Bool.not_true, Bool.false_eq_true, if_false, hany]
      exact ⟨hnew, trivial, trivial⟩
  · intro content k
    simp only [completeLayout, layoutFromSeq_getElem, chunkRows, List.getElem?_map,
      Option.map_map, Nat.zero_add]
    rfl

/-- Digest stand-in for the C4 witness. -/
def c4H (_bytes : List Nat) : String := "cw"

/-- The file of the C4 witness: row id 1, chunkable. -/
def c4File : FileRec := ⟨1, "fs", true⟩

/-- Initial chunker state of the C4 witness: everything empty. -/
def c4State : ChunkerState := ⟨[], [], []⟩

/-- C4 witness: on a 1-byte file with no prior layout, a fetch failure
leaves the state unchanged, a committed run produces the complete
one-row layout, and a run whose transaction raises at window 0 leaves
no layout row. -/
theorem c4_chunking_atomic_witness :
    chunk_lfs_file c4H c4File none none c4State = (false, c4State) ∧
    layoutFor (chunk_lfs_file c4H c4File (some [7]) none c4State).2 1 =
      completeLayout c4H 1 [7] ∧
    layoutFor (chunk_lfs_file c4H c4File (some [7]) (some 0) c4State).2 1 = [] := by
  have h1 := (c4_chunking_atomic c4H c4File none none c4State rfl rfl).1 rfl
  have h2 := ((c4_chunking_atomic c4H c4File (some [7]) none c4State rfl rfl).2.1
    [7] rfl).1 rfl
  have h3 := ((c4_chunking_atomic c4H c4File (some [7]) (some 0) c4State rfl rfl).2.1
    [7] rfl).2 0 rfl
  exact ⟨h1, h2, h3.1⟩

/-- C10: for an unchunked file of size 0 the synthetic reconstruction
is exactly one term whose hash is the file's own id, with
unpacked_length 0 and logical range (0, 1), one fetch_info entry under
that hash with byte range (0, 0), and offset_into_first_range 0. -/
theorem c10_empty_file_reconstruction (H : List Nat → String)
    (file_id presigned_url : String) :
    generate_chunked_reconstruction H file_id 0 presigned_url =
      ⟨0, [⟨file_id, 0, ⟨0, 1⟩⟩], [(file_id, [⟨⟨0, 1⟩, presigned_url, ⟨0, 0⟩⟩])]⟩ := by
  rfl
